import Mathlib

/-!
Shallow embedding of the Strategic Financial Insight data-preparation
pipeline (`support/supporting_funcs.py` and `support/load_data.py`).

Tables are modelled as a list of column names together with a list of
rows, where a row is a total function from column names to cell values.
Numeric cells are `Option ℚ`: `none` models a pandas missing value
(`NaN`) and the arithmetic below propagates `none` the way pandas
propagates `NaN`.  The full municipal database, which also carries the
text column `Name`, uses the richer cell type `Val`.
-/

namespace IPI

/-! ### Missing-value arithmetic (pandas `NaN` propagation) -/

/-- Elementwise product with missing-value propagation: `NaN * x = NaN`. -/
def omul : Option ℚ → Option ℚ → Option ℚ
  | some a, some b => some (a * b)
  | _, _ => none

/-- Elementwise quotient with missing-value propagation.  A zero
denominator is mapped to missing; inside `normalize` this case is
unreachable because every denominator column has had its zeros replaced
by missing (`replace(0, np.nan)`) before any division. -/
def odiv : Option ℚ → Option ℚ → Option ℚ
  | some a, some b => if b = 0 then none else some (a / b)
  | _, _ => none

/-- `Series.replace(0, np.nan)` on one cell. -/
def replace0 : Option ℚ → Option ℚ
  | some a => if a = 0 then none else some a
  | none => none

/-! ### Inflation multiplier (`conv` in `supporting_funcs.py`) -/

/-- CPI baseline for October 2019, the constant `CPI_OCT_2019` in `conv`. -/
def CPI_OCT_2019 : ℚ := 257.346

/-- `conv(init_val)`: the multiplier `1 + ((CPI_OCT_2019 - init_val) / init_val)`. -/
def conv (init_val : ℚ) : ℚ :=
  1 + ((CPI_OCT_2019 - init_val) / init_val)

/-- `conv` with Python scalar-division semantics made explicit: the body
divides by `init_val` with no guard, so `init_val = 0` raises
`ZeroDivisionError` instead of returning a multiplier. -/
def convChecked (init_val : ℚ) : Except String ℚ :=
  if init_val = 0 then .error "ZeroDivisionError" else .ok (conv init_val)

/-- One row of the BLS CPI table: `{Year, Annual}`. -/
structure CpiRow where
  year : ℤ
  annual : ℚ
deriving DecidableEq

/-- `cpi_df['Inflation'] = cpi_df['Annual'].map(conv)`: every CPI row is
paired with the multiplier computed from its `Annual` value. -/
def addInflation (cpi : List CpiRow) : List (CpiRow × ℚ) :=
  cpi.map (fun r => (r, conv r.annual))

/-! ### Generic data frame -/

/-- A pandas `DataFrame` with cell type `α`: the ordered column names and
the rows, each row a total function from column name to cell. -/
structure DataFrame (α : Type) where
  cols : List String
  rows : List (String → α)

/-- The values of column `c`, one per row (`df[c]`). -/
def getCol {α : Type} (df : DataFrame α) (c : String) : List α :=
  df.rows.map (fun r => r c)

/-- `df[c] = vals`: writes a whole column, appending the name to the
column list when it is new (pandas column assignment). -/
def setCol {α : Type} (df : DataFrame α) (c : String) (vals : List α) : DataFrame α :=
  { cols := if c ∈ df.cols then df.cols else df.cols ++ [c],
    rows := List.zipWith (fun r v => fun c' => if c' = c then v else r c') df.rows vals }

/-! ### Linear interpolation (`Series.interpolate()`, default method) -/

/-- Distance to the next non-missing value in the list, and that value. -/
def nextVal : List (Option ℚ) → Option (ℕ × ℚ)
  | [] => none
  | some x :: _ => some (0, x)
  | none :: rest => (nextVal rest).map (fun p => (p.1 + 1, p.2))

/-- One pass of pandas linear interpolation: `prev` is the preceding
valid value, if any.  Leading missing values stay missing, interior gaps
are filled linearly by position, trailing missing values repeat the last
valid value (`limit_direction='forward'`, the default). -/
def interpGo : Option ℚ → List (Option ℚ) → List (Option ℚ)
  | _, [] => []
  | _, some x :: rest => some x :: interpGo (some x) rest
  | none, none :: rest => none :: interpGo none rest
  | some p, none :: rest =>
    match nextVal rest with
    | none => some p :: interpGo (some p) rest
    | some (d, nxt) =>
      some (p + (nxt - p) / (d + 2)) :: interpGo (some (p + (nxt - p) / (d + 2))) rest

/-- `Series.interpolate()` on a whole column. -/
def interp (l : List (Option ℚ)) : List (Option ℚ) :=
  interpGo none l

/-! ### `normalize` -/

/-- One loop iteration of `normalize`:
`input[item + suffix] = (input[item] / input[denom]) * k`. -/
def normStep (suffix denom : String) (k : ℚ)
    (df : DataFrame (Option ℚ)) (item : String) : DataFrame (Option ℚ) :=
  setCol df (item ++ suffix)
    (List.zipWith (fun x d => omul (odiv x d) (some k)) (getCol df item) (getCol df denom))

/-- `input['Total_Expenditure'] = input['Total_Expenditure'].replace(0, np.nan)`. -/
def normTE (df : DataFrame (Option ℚ)) : DataFrame (Option ℚ) :=
  setCol df "Total_Expenditure" ((getCol df "Total_Expenditure").map replace0)

/-- The `for item in exp_cols` loop of `normalize`. -/
def normExp (exp_cols : List String) (df : DataFrame (Option ℚ)) : DataFrame (Option ℚ) :=
  exp_cols.foldl (normStep "_PerExp" "Total_Expenditure" 100) df

/-- `input['Total_Revenue'] = input['Total_Revenue'].replace(0, np.nan)`. -/
def normTR (df : DataFrame (Option ℚ)) : DataFrame (Option ℚ) :=
  setCol df "Total_Revenue" ((getCol df "Total_Revenue").map replace0)

/-- The `for item in rev_cols` loop of `normalize`. -/
def normRev (rev_cols : List String) (df : DataFrame (Option ℚ)) : DataFrame (Option ℚ) :=
  rev_cols.foldl (normStep "_PerRev" "Total_Revenue" 100) df

/-- `input['Population'] = input['Population'].replace(0, np.nan).interpolate()`. -/
def normPop (df : DataFrame (Option ℚ)) : DataFrame (Option ℚ) :=
  setCol df "Population" (interp ((getCol df "Population").map replace0))

/-- The `for item in rate_cols` loop of `normalize`. -/
def normRate (rate_cols : List String) (df : DataFrame (Option ℚ)) : DataFrame (Option ℚ) :=
  rate_cols.foldl (normStep "_100k" "Population" 100000) df

/-- `normalize(input)` from `supporting_funcs.py`, parameterised by the
three field groups read from `col_only.csv` (the catalog is external
data; its index ranges are exposed by `expenditure_fields` etc. below):
replace zeros of `Total_Expenditure` by missing and derive `_PerExp`
percentages, the same for `Total_Revenue` and `_PerRev`, then replace
zeros of `Population` by missing, interpolate it, and derive `_100k`
rates.  The six stages above are the source's statements in order. -/
def normalize (exp_cols rev_cols rate_cols : List String)
    (input : DataFrame (Option ℚ)) : DataFrame (Option ℚ) :=
  normRate rate_cols (normPop (normRev rev_cols (normTR (normExp exp_cols (normTE input)))))

/-- `cols['ShortName'].iloc[idxs]`: the catalog names at the given positions. -/
def selIdx (catalog : List String) (idxs : List ℕ) : List String :=
  idxs.filterMap (fun i => catalog.get? i)

/-- Expenditure group: catalog entries at indices `[145, 593)`. -/
def expenditure_fields (catalog : List String) : List String :=
  selIdx catalog (List.range' 145 448)

/-- Revenue group: catalog entries at indices `[19, 143)`. -/
def revenue_fields (catalog : List String) : List String :=
  selIdx catalog (List.range' 19 124)

/-- Rate group: catalog entries at indices `[594,610) ∪ [612,614) ∪ {144, 18}`. -/
def rate_fields (catalog : List String) : List String :=
  selIdx catalog (List.range' 594 16 ++ List.range' 612 2 ++ [144, 18])

/-- The column names written by `normalize`. -/
def writtenCols (exp_cols rev_cols rate_cols : List String) : List String :=
  exp_cols.map (· ++ "_PerExp") ++ rev_cols.map (· ++ "_PerRev") ++ rate_cols.map (· ++ "_100k")

/-- The column names read by `normalize`. -/
def readCols (exp_cols rev_cols rate_cols : List String) : List String :=
  exp_cols ++ rev_cols ++ rate_cols ++ ["Total_Expenditure", "Total_Revenue", "Population"]

/-- Freshness of the derived column names: no derived name collides with
a source name or with a derived name of a later family.  This holds for
the actual catalog, whose source names do not end in `_PerExp`,
`_PerRev` or `_100k`. -/
def FreshCols (e r t : List String) : Prop :=
  (∀ w ∈ writtenCols e r t, w ∉ readCols e r t) ∧
  (∀ w ∈ e.map (· ++ "_PerExp"), w ∉ r.map (· ++ "_PerRev") ∧ w ∉ t.map (· ++ "_100k")) ∧
  (∀ w ∈ r.map (· ++ "_PerRev"), w ∉ t.map (· ++ "_100k"))

instance instDecidableFreshCols (e r t : List String) : Decidable (FreshCols e r t) := by
  unfold FreshCols
  infer_instance

/-! ### `categorize_size` -/

/-- The row helper `category` inside `categorize_size`: with a missing
(`NaN`) population every comparison is false and the final `else`
assigns missing; a present population always hits one of the three
numeric branches. -/
def category (pop : Option ℚ) : Option String :=
  match pop with
  | some p =>
    if p < 2500 then some "rural"
    else if 2500 ≤ p ∧ p < 50000 then some "non-urban"
    else if p ≥ 50000 then some "urban"
    else none
  | none => none

/-- `categorize_size` as a function of the `Population` column: the
initial `input['size'] = 'na'` is always overwritten by `apply`, so the
resulting `size` column is `category` mapped over the populations. -/
def categorize_size (pops : List (Option ℚ)) : List (Option String) :=
  pops.map category

/-! ### `search_all` -/

/-- `pat` occurs as a contiguous sublist of `l`. -/
def isSub (pat l : List Char) : Bool :=
  l.tails.any (fun t => pat.isPrefixOf t)

/-- Case-insensitive containment: `re.search('(?i)' + pat, name)` for a
literal (metacharacter-free) pattern, embedded as substring search after
lower-casing both sides. -/
def ciContains (name pat : String) : Bool :=
  isSub (pat.data.map Char.toLower) (name.data.map Char.toLower)

/-- `search_all(data, search)`: the columns of `data` whose names match
the pattern case-insensitively, in column order (`data.filter(regex=
'(?i)' + search).columns`). -/
def search_all {α : Type} (data : DataFrame α) (search : String) : List String :=
  data.cols.filter (fun c => ciContains c search)

/-! ### `all_data` merges (`load_data.py`) -/

/-- `pd.merge(l1, l2)` inner join: each left row paired with every
matching right row, left order first. -/
def innerJoin {α β : Type} (p : α → β → Bool) (l1 : List α) (l2 : List β) : List (α × β) :=
  l1.flatMap (fun a => (l2.filter (p a)).map (fun b => (a, b)))

/-- `l1.merge(l2, how='left')`: unmatched left rows are kept with a
missing right part; multiple matches produce one output row each
(Cartesian-product join semantics). -/
def leftJoin {α β : Type} (p : α → β → Bool) (l1 : List α) (l2 : List β) : List (α × Option β) :=
  l1.flatMap (fun a =>
    match l2.filter (p a) with
    | [] => [(a, none)]
    | bs => bs.map (fun b => (a, some b)))

/-- The key fields of an inflation-adjusted financial row used by `all_data`. -/
structure IpiRow where
  name : String
  fips_county : ℤ
  year4 : ℤ
deriving DecidableEq

/-- The key fields of an employment row: `County FIPS Code`, `County FIPS Year`. -/
structure EmpRow where
  countyFips : ℤ
  countyYear : ℤ
deriving DecidableEq

/-- The key field of a GPS row: `Name`. -/
structure GpsRow where
  name : String
deriving DecidableEq

/-- Join condition of the first merge:
`left_on=['FIPS_County','Year4'], right_on=['County FIPS Code','County FIPS Year']`. -/
def empKey (f : IpiRow) (e : EmpRow) : Bool :=
  decide (f.fips_county = e.countyFips) && decide (f.year4 = e.countyYear)

/-- Join condition of the second merge: `on='Name'`, exact case-sensitive match. -/
def gpsKey (fe : IpiRow × EmpRow) (g : GpsRow) : Bool :=
  decide (fe.1.name = g.name)

/-- `merge1 = ipi_data.merge(emp_data, ...)`: the inner join of the
financial rows with the employment rows. -/
def merge1 (ipi_data : List IpiRow) (emp_data : List EmpRow) : List (IpiRow × EmpRow) :=
  innerJoin empKey ipi_data emp_data

/-- `all_data = merge1.merge(gps_data, how='left', on='Name')`: the
merge pipeline of `load_data.all_data`. -/
def all_data (ipi_data : List IpiRow) (emp_data : List EmpRow) (gps_data : List GpsRow) :
    List ((IpiRow × EmpRow) × Option GpsRow) :=
  leftJoin gpsKey (merge1 ipi_data emp_data) gps_data

/-! ### `gen_real_dollars` -/

/-- A cell of the municipal database: missing, numeric, or text (`Name`). -/
inductive Val
  | na
  | num (q : ℚ)
  | str (s : String)
deriving DecidableEq

/-- pandas elementwise product on such cells: numeric times numeric is
numeric, any operand missing gives missing (`NaN * x = NaN`). -/
def vmul : Val → Val → Val
  | .num a, .num b => .num (a * b)
  | _, _ => .na

/-- Merge-key equality `Year4 = Year`: a numeric cell equal to the
integer year (a missing `Year4` matches nothing, as `NaN` compares
unequal to everything). -/
def vEqInt (v : Val) (z : ℤ) : Bool :=
  match v with
  | .num q => decide (q = (z : ℚ))
  | _ => false

/-- The catalog index set of `gen_real_dollars`:
`np.concatenate([[0, 2], np.arange(18, 594), [616]])`. -/
def finanIdx : List ℕ :=
  [0, 2] ++ List.range' 18 576 ++ [616]

/-- The financial columns actually multiplied: the catalog entries at
`finanIdx` minus the names dropped before the multiplication
(`tmp_df.drop(columns=['Name', 'Year4', 'Year', 'Annual'])`). -/
def finanFields (catalog : List String) : List String :=
  (selIdx catalog finanIdx).filter (fun c => decide (c ∉ ["Name", "Year4", "Year", "Annual"]))

/-- The multiplier a row receives from the left merge with the CPI
table: the `Inflation` value of the CPI row whose `Year` equals the
row's `Year4`, missing when no CPI row matches.  Faithful to the pandas
merge when the CPI table is unique on `Year` (its documented shape). -/
def rowMult (cpi : List CpiRow) (y4 : Val) : Val :=
  match (cpi.filter (fun c => vEqInt y4 c.year)).head? with
  | some c => .num (conv c.annual)
  | none => .na

/-- `gen_real_dollars`, with the file loads made parameters: the CPI
table, the column catalog (`col_only.csv`) and the municipal database.
The merge / drop / concat / reindex dance of the source is modelled as
the equivalent columnwise transform (valid when the CPI table is unique
on `Year`, so the left merge is order- and count-preserving): every
column in `finanFields` is multiplied by the row's multiplier, every
other column is kept, and the columns are reordered to catalog order
(`real_df[names['ShortName']]`). -/
def gen_real_dollars (catalog : List String) (cpi : List CpiRow)
    (data_all : DataFrame Val) : DataFrame Val :=
  { cols := catalog,
    rows := data_all.rows.map (fun r =>
      let m := rowMult cpi (r "Year4")
      fun c => if c ∈ finanFields catalog then vmul (r c) m else r c) }

/-! ## Helper lemmas -/

/-- String append is right-cancellative. -/
theorem sappend_right_cancel {a b c : String} (h : a ++ c = b ++ c) : a = b := by
  have hd : (a ++ c).data = (b ++ c).data := congrArg String.data h
  simp only [String.data_append] at hd
  exact String.ext (List.append_cancel_right hd)

/-- A left join produces exactly one output row per left row when every
left row has at most one match on the right. -/
theorem length_leftJoin {α β : Type} (p : α → β → Bool) (l1 : List α) (l2 : List β)
    (h : ∀ a ∈ l1, (l2.filter (p a)).length ≤ 1) :
    (leftJoin p l1 l2).length = l1.length := by
  induction l1 with
  | nil => rfl
  | cons a l ih =>
    have ha := h a (List.mem_cons_self a l)
    have hl : ∀ x ∈ l, (l2.filter (p x)).length ≤ 1 := fun x hx => h x (List.mem_cons_of_mem _ hx)
    cases hfil : l2.filter (p a) with
    | nil =>
      simp only [leftJoin, List.flatMap_cons, hfil, List.length_append, List.length_singleton]
      rw [← leftJoin, ih hl, Nat.add_comm]
      exact (List.length_cons a l).symm
    | cons b bs =>
      rw [hfil] at ha
      have hbs : bs = [] := by
        simp only [List.length_cons] at ha
        exact List.length_eq_zero.1 (Nat.le_zero.1 (Nat.le_of_succ_le_succ ha))
      subst hbs
      simp only [leftJoin, List.flatMap_cons, hfil, List.length_append, List.map_cons,
        List.map_nil, List.length_singleton]
      rw [← leftJoin, ih hl, Nat.add_comm]
      exact (List.length_cons a l).symm

/-- First branch of `category`. -/
theorem category_rural {p : ℚ} (h : p < 2500) : category (some p) = some "rural" := by
  simp [category, h]

/-- Second branch of `category`. -/
theorem category_nonurban {p : ℚ} (h1 : 2500 ≤ p) (h2 : p < 50000) :
    category (some p) = some "non-urban" := by
  have hn : ¬ p < 2500 := by linarith
  simp [category, hn, h1, h2]

/-- Third branch of `category`. -/
theorem category_urban {p : ℚ} (h : 50000 ≤ p) : category (some p) = some "urban" := by
  have h1 : ¬ p < 2500 := by linarith
  have h2 : ¬ (2500 ≤ p ∧ p < 50000) := by
    rintro ⟨-, h'⟩
    linarith
  simp [category, h1, h2, ge_iff_le, h]

/-- A present population always receives one of the three buckets. -/
theorem category_ne_none (p : ℚ) : category (some p) ≠ none := by
  rcases lt_or_le p 2500 with h | h
  · simp [category_rural h]
  · rcases lt_or_le p 50000 with h' | h'
    · simp [category_nonurban h h']
    · simp [category_urban h']

/-- Reading a column projects each row. -/
theorem length_getCol {α : Type} (df : DataFrame α) (c : String) :
    (getCol df c).length = df.rows.length :=
  List.length_map _ _

/-- Reading a column at row `i` applies row `i` to the name. -/
theorem getElem?_getCol {α : Type} (df : DataFrame α) (c : String) (i : ℕ) :
    (getCol df c)[i]? = (df.rows[i]?).map (fun r => r c) := by
  simp [getCol]

/-- Writing a column then reading it back gives the written values. -/
theorem map_zipWith_update_self {α : Type} (c : String) :
    ∀ (rows : List (String → α)) (vals : List α), vals.length = rows.length →
      (List.zipWith (fun r v => fun c' => if c' = c then v else r c') rows vals).map
        (fun r => r c) = vals := by
  intro rows
  induction rows with
  | nil =>
    intro vals h
    rw [List.length_nil, List.length_eq_zero] at h
    subst h
    rfl
  | cons r rs ih =>
    intro vals h
    cases vals with
    | nil => simp at h
    | cons v vs =>
      simp only [List.zipWith_cons_cons, List.map_cons]
      rw [ih vs (by simpa using h)]
      simp

/-- Writing one column leaves every other column unchanged. -/
theorem map_zipWith_update_ne {α : Type} (c c' : String) (hne : c' ≠ c) :
    ∀ (rows : List (String → α)) (vals : List α), vals.length = rows.length →
      (List.zipWith (fun r v => fun x => if x = c then v else r x) rows vals).map
        (fun r => r c') = rows.map (fun r => r c') := by
  intro rows
  induction rows with
  | nil => intro vals _; rfl
  | cons r rs ih =>
    intro vals h
    cases vals with
    | nil => simp at h
    | cons v vs =>
      simp only [List.zipWith_cons_cons, List.map_cons, if_neg hne]
      rw [ih vs (by simpa using h)]

/-- `setCol` then `getCol` at the written name. -/
theorem getCol_setCol_self {α : Type} (df : DataFrame α) (c : String) (vals : List α)
    (h : vals.length = df.rows.length) : getCol (setCol df c vals) c = vals :=
  map_zipWith_update_self c df.rows vals h

/-- `setCol` then `getCol` at a different name. -/
theorem getCol_setCol_ne {α : Type} (df : DataFrame α) (c c' : String) (vals : List α)
    (hne : c' ≠ c) (h : vals.length = df.rows.length) :
    getCol (setCol df c vals) c' = getCol df c' :=
  map_zipWith_update_ne c c' hne df.rows vals h

/-- `setCol` with a full column keeps the row count. -/
theorem rows_length_setCol {α : Type} (df : DataFrame α) (c : String) (vals : List α)
    (h : vals.length = df.rows.length) : (setCol df c vals).rows.length = df.rows.length := by
  simp [setCol, List.length_zipWith, h]

/-- `setCol` keeps every existing column name. -/
theorem mem_cols_setCol {α : Type} (df : DataFrame α) (c : String) (vals : List α)
    (x : String) (hx : x ∈ df.cols) : x ∈ (setCol df c vals).cols := by
  simp only [setCol]
  split
  · exact hx
  · exact List.mem_append_left _ hx

/-- `setCol` makes the written name present. -/
theorem self_mem_cols_setCol {α : Type} (df : DataFrame α) (c : String) (vals : List α) :
    c ∈ (setCol df c vals).cols := by
  simp only [setCol]
  split
  · assumption
  · exact List.mem_append_right _ (List.mem_singleton.2 rfl)

/-- One normalization step keeps the row count. -/
theorem rows_length_normStep (s d : String) (k : ℚ) (df : DataFrame (Option ℚ)) (item : String) :
    (normStep s d k df item).rows.length = df.rows.length := by
  simp [normStep, rows_length_setCol, List.length_zipWith, length_getCol]

/-- One normalization step leaves every column other than `item ++ s` unchanged. -/
theorem getCol_normStep_ne (s d : String) (k : ℚ) (df : DataFrame (Option ℚ))
    (item c : String) (hne : c ≠ item ++ s) :
    getCol (normStep s d k df item) c = getCol df c :=
  getCol_setCol_ne _ _ _ _ hne (by simp [List.length_zipWith, length_getCol])

/-- One normalization step writes the elementwise `(item / denom) * k`. -/
theorem getCol_normStep_self (s d : String) (k : ℚ) (df : DataFrame (Option ℚ)) (item : String) :
    getCol (normStep s d k df item) (item ++ s)
      = List.zipWith (fun x dv => omul (odiv x dv) (some k)) (getCol df item) (getCol df d) :=
  getCol_setCol_self _ _ _ (by simp [List.length_zipWith, length_getCol])

/-- A normalization loop keeps the row count. -/
theorem rows_length_foldl_normStep (s d : String) (k : ℚ) :
    ∀ (l : List String) (df : DataFrame (Option ℚ)),
      (l.foldl (normStep s d k) df).rows.length = df.rows.length := by
  intro l
  induction l with
  | nil => intro df; rfl
  | cons j l ih =>
    intro df
    rw [List.foldl_cons, ih, rows_length_normStep]

/-- A normalization loop leaves columns outside its suffix family unchanged. -/
theorem getCol_foldl_normStep_ne (s d : String) (k : ℚ) :
    ∀ (l : List String) (df : DataFrame (Option ℚ)) (c : String),
      c ∉ l.map (· ++ s) → getCol (l.foldl (normStep s d k) df) c = getCol df c := by
  intro l
  induction l with
  | nil => intro df c _; rfl
  | cons j l ih =>
    intro df c hc
    have h1 : ¬(c = j ++ s ∨ c ∈ l.map (· ++ s)) := by simpa using hc
    rw [List.foldl_cons, ih _ c (fun hm => h1 (Or.inr hm)),
      getCol_normStep_ne s d k df j c (fun he => h1 (Or.inl he))]

/-- A normalization loop keeps every existing column name. -/
theorem mem_cols_foldl_normStep (s d : String) (k : ℚ) :
    ∀ (l : List String) (df : DataFrame (Option ℚ)) (x : String),
      x ∈ df.cols → x ∈ (l.foldl (normStep s d k) df).cols := by
  intro l
  induction l with
  | nil => intro df x hx; exact hx
  | cons j l ih =>
    intro df x hx
    rw [List.foldl_cons]
    exact ih _ x (mem_cols_setCol _ _ _ x hx)

/-- A normalization loop adds the derived name of each processed item. -/
theorem derived_mem_cols_foldl_normStep (s d : String) (k : ℚ) :
    ∀ (l : List String) (df : DataFrame (Option ℚ)) (F : String),
      F ∈ l → (F ++ s) ∈ (l.foldl (normStep s d k) df).cols := by
  intro l
  induction l with
  | nil => intro df F hF; exact absurd hF (List.not_mem_nil F)
  | cons j l ih =>
    intro df F hF
    rw [List.foldl_cons]
    by_cases hFl : F ∈ l
    · exact ih _ F hFl
    · have hjF : j = F := by
        rcases List.mem_cons.1 hF with h | h
        · exact h.symm
        · exact absurd h hFl
      subst hjF
      exact mem_cols_foldl_normStep s d k l _ _ (self_mem_cols_setCol _ _ _)

/-- The derived column written by a normalization loop: as long as
neither the item nor the denominator is itself overwritten by the loop,
its value is the elementwise formula over the loop's input table. -/
theorem getCol_foldl_normStep_derived (s d : String) (k : ℚ) :
    ∀ (l : List String) (df : DataFrame (Option ℚ)) (F : String),
      F ∈ l → (∀ j ∈ l, F ≠ j ++ s) → (∀ j ∈ l, d ≠ j ++ s) →
      getCol (l.foldl (normStep s d k) df) (F ++ s)
        = List.zipWith (fun x dv => omul (odiv x dv) (some k)) (getCol df F) (getCol df d) := by
  intro l
  induction l with
  | nil => intro df F hF _ _; exact absurd hF (List.not_mem_nil F)
  | cons j l ih =>
    intro df F hF hFw hDw
    rw [List.foldl_cons]
    have hFj : F ≠ j ++ s := hFw j (List.mem_cons_self j l)
    have hDj : d ≠ j ++ s := hDw j (List.mem_cons_self j l)
    by_cases hFl : F ∈ l
    · rw [ih (normStep s d k df j) F hFl (fun x hx => hFw x (List.mem_cons_of_mem _ hx))
        (fun x hx => hDw x (List.mem_cons_of_mem _ hx)),
        getCol_normStep_ne s d k df j F hFj, getCol_normStep_ne s d k df j d hDj]
    · have hjF : j = F := by
        rcases List.mem_cons.1 hF with h | h
        · exact h.symm
        · exact absurd h hFl
      subst hjF
      have hnotin : (j ++ s) ∉ l.map (· ++ s) := by
        intro hmem
        rcases List.mem_map.1 hmem with ⟨x, hx, hxe⟩
        exact hFl (sappend_right_cancel hxe ▸ hx)
      rw [getCol_foldl_normStep_ne s d k l _ _ hnotin, getCol_normStep_self]

/-- Interpolation keeps the column length. -/
theorem length_interpGo :
    ∀ (l : List (Option ℚ)) (prev : Option ℚ), (interpGo prev l).length = l.length := by
  intro l
  induction l with
  | nil => intro prev; cases prev <;> simp [interpGo]
  | cons hd tl ih =>
    intro prev
    cases hd with
    | some x => cases prev <;> simp [interpGo, ih]
    | none =>
      cases prev with
      | none => simp [interpGo, ih]
      | some p =>
        cases hnv : nextVal tl with
        | none => simp [interpGo, hnv, ih]
        | some pr =>
          cases pr with
          | mk dd nx => simp [interpGo, hnv, ih]

/-- `interp` keeps the column length. -/
theorem length_interp (l : List (Option ℚ)) : (interp l).length = l.length :=
  length_interpGo l none

/-- Interpolation never changes a present value. -/
theorem getElem?_interpGo_some :
    ∀ (l : List (Option ℚ)) (prev : Option ℚ) (i : ℕ) (x : ℚ),
      l[i]? = some (some x) → (interpGo prev l)[i]? = some (some x) := by
  intro l
  induction l with
  | nil => intro prev i x h; simp at h
  | cons hd tl ih =>
    intro prev i x h
    cases i with
    | zero =>
      simp only [List.getElem?_cons_zero, Option.some.injEq] at h
      subst h
      cases prev <;> simp [interpGo]
    | succ n =>
      have h' : tl[n]? = some (some x) := by simpa using h
      cases hd with
      | some y => cases prev <;> simpa [interpGo] using ih (some y) n x h'
      | none =>
        cases prev with
        | none => simpa [interpGo] using ih none n x h'
        | some p =>
          cases hnv : nextVal tl with
          | none => simpa [interpGo, hnv] using ih (some p) n x h'
          | some pr =>
            cases pr with
            | mk dd nx => simpa [interpGo, hnv] using ih (some (p + (nx - p) / (dd + 2))) n x h'

/-- `interp` never changes a present value. -/
theorem getElem?_interp_some (l : List (Option ℚ)) (i : ℕ) (x : ℚ)
    (h : l[i]? = some (some x)) : (interp l)[i]? = some (some x) :=
  getElem?_interpGo_some l none i x h

/-- Unfolding membership of an expenditure-derived name. -/
theorem mem_writtenCols_exp (e r t : List String) {j : String} (hj : j ∈ e) :
    j ++ "_PerExp" ∈ writtenCols e r t := by
  simp only [writtenCols, List.mem_append, List.mem_map]
  exact Or.inl (Or.inl ⟨j, hj, rfl⟩)

/-- Unfolding membership of a revenue-derived name. -/
theorem mem_writtenCols_rev (e r t : List String) {j : String} (hj : j ∈ r) :
    j ++ "_PerRev" ∈ writtenCols e r t := by
  simp only [writtenCols, List.mem_append, List.mem_map]
  exact Or.inl (Or.inr ⟨j, hj, rfl⟩)

/-- Unfolding membership of a rate-derived name. -/
theorem mem_writtenCols_rate (e r t : List String) {j : String} (hj : j ∈ t) :
    j ++ "_100k" ∈ writtenCols e r t := by
  simp only [writtenCols, List.mem_append, List.mem_map]
  exact Or.inr ⟨j, hj, rfl⟩

/-- A fresh written name collides with no read name. -/
theorem not_read_parts {e r t : List String} (h : FreshCols e r t) {w : String}
    (hw : w ∈ writtenCols e r t) :
    w ∉ e ∧ w ∉ r ∧ w ∉ t ∧ w ≠ "Total_Expenditure" ∧ w ≠ "Total_Revenue" ∧
      w ≠ "Population" := by
  have hnr := h.1 w hw
  simp only [readCols, List.mem_append, List.mem_cons, List.not_mem_nil, or_false,
    not_or] at hnr
  tauto

/-- A read name is never a written name. -/
theorem read_not_written {e r t : List String} (h : FreshCols e r t) {w : String}
    (hw : w ∈ readCols e r t) : w ∉ writtenCols e r t :=
  fun hmem => h.1 w hmem hw

/-- The denominators are read names. -/
theorem TE_mem_readCols (e r t : List String) : "Total_Expenditure" ∈ readCols e r t := by
  simp [readCols]

/-- The revenue denominator is a read name. -/
theorem TR_mem_readCols (e r t : List String) : "Total_Revenue" ∈ readCols e r t := by
  simp [readCols]

/-- The population denominator is a read name. -/
theorem Pop_mem_readCols (e r t : List String) : "Population" ∈ readCols e r t := by
  simp [readCols]

/-- Splitting non-membership in the written names into the three families. -/
theorem not_written_parts {e r t : List String} {w : String} (h : w ∉ writtenCols e r t) :
    w ∉ e.map (· ++ "_PerExp") ∧ w ∉ r.map (· ++ "_PerRev") ∧ w ∉ t.map (· ++ "_100k") := by
  simp only [writtenCols, List.mem_append, not_or] at h
  tauto

/-- An expenditure-derived name is not a revenue- or rate-derived name. -/
theorem fresh_exp_not_later {e r t : List String} (h : FreshCols e r t) {j : String}
    (hj : j ∈ e) :
    j ++ "_PerExp" ∉ r.map (· ++ "_PerRev") ∧ j ++ "_PerExp" ∉ t.map (· ++ "_100k") :=
  h.2.1 _ (List.mem_map_of_mem _ hj)

/-- A revenue-derived name is not a rate-derived name. -/
theorem fresh_rev_not_rate {e r t : List String} (h : FreshCols e r t) {j : String}
    (hj : j ∈ r) : j ++ "_PerRev" ∉ t.map (· ++ "_100k") :=
  h.2.2 _ (List.mem_map_of_mem _ hj)

/-- Row count is preserved by the whole of `normalize`. -/
theorem rows_length_normalize (e r t : List String) (df : DataFrame (Option ℚ)) :
    (normalize e r t df).rows.length = df.rows.length := by
  simp only [normalize, normRate, normPop, normRev, normTR, normExp, normTE]
  rw [rows_length_foldl_normStep, rows_length_setCol, rows_length_foldl_normStep,
    rows_length_setCol, rows_length_foldl_normStep, rows_length_setCol]
  · simp [length_getCol]
  · simp [length_getCol]
  · simp [length_interp, length_getCol]

/-- Frame property of `normalize` on untouched columns. -/
theorem getCol_normalize_frame (e r t : List String) (df : DataFrame (Option ℚ)) (c : String)
    (he : c ∉ e.map (· ++ "_PerExp")) (hr : c ∉ r.map (· ++ "_PerRev"))
    (ht : c ∉ t.map (· ++ "_100k"))
    (hTE : c ≠ "Total_Expenditure") (hTR : c ≠ "Total_Revenue") (hP : c ≠ "Population") :
    getCol (normalize e r t df) c = getCol df c := by
  simp only [normalize, normRate, normPop, normRev, normTR, normExp, normTE]
  rw [getCol_foldl_normStep_ne _ _ _ _ _ _ ht,
    getCol_setCol_ne _ _ _ _ hP (by simp [length_interp, length_getCol]),
    getCol_foldl_normStep_ne _ _ _ _ _ _ hr,
    getCol_setCol_ne _ _ _ _ hTR (by simp [length_getCol]),
    getCol_foldl_normStep_ne _ _ _ _ _ _ he,
    getCol_setCol_ne _ _ _ _ hTE (by simp [length_getCol])]

/-- The `Total_Expenditure` column after `normalize`: zeros replaced by
missing, otherwise untouched. -/
theorem getCol_normalize_TE (e r t : List String) (df : DataFrame (Option ℚ))
    (h : FreshCols e r t) :
    getCol (normalize e r t df) "Total_Expenditure"
      = (getCol df "Total_Expenditure").map replace0 := by
  have hnw := not_written_parts (read_not_written h (TE_mem_readCols e r t))
  simp only [normalize, normRate, normPop, normRev, normTR, normExp, normTE]
  rw [getCol_foldl_normStep_ne _ _ _ _ _ _ hnw.2.2,
    getCol_setCol_ne _ _ _ _ (by decide) (by simp [length_interp, length_getCol]),
    getCol_foldl_normStep_ne _ _ _ _ _ _ hnw.2.1,
    getCol_setCol_ne _ _ _ _ (by decide) (by simp [length_getCol]),
    getCol_foldl_normStep_ne _ _ _ _ _ _ hnw.1,
    getCol_setCol_self _ _ _ (by simp [length_getCol])]

/-- The `Total_Revenue` column after `normalize`: zeros replaced by
missing, otherwise untouched. -/
theorem getCol_normalize_TR (e r t : List String) (df : DataFrame (Option ℚ))
    (h : FreshCols e r t) :
    getCol (normalize e r t df) "Total_Revenue"
      = (getCol df "Total_Revenue").map replace0 := by
  have hnw := not_written_parts (read_not_written h (TR_mem_readCols e r t))
  simp only [normalize, normRate, normPop, normRev, normTR, normExp, normTE]
  rw [getCol_foldl_normStep_ne _ _ _ _ _ _ hnw.2.2,
    getCol_setCol_ne _ _ _ _ (by decide) (by simp [length_interp, length_getCol]),
    getCol_foldl_normStep_ne _ _ _ _ _ _ hnw.2.1,
    getCol_setCol_self _ _ _ (by simp [length_getCol]),
    getCol_foldl_normStep_ne _ _ _ _ _ _ hnw.1,
    getCol_setCol_ne _ _ _ _ (by decide) (by simp [length_getCol])]

/-- The `Population` column after `normalize`: zeros replaced by missing
and then linearly interpolated. -/
theorem getCol_normalize_Pop (e r t : List String) (df : DataFrame (Option ℚ))
    (h : FreshCols e r t) :
    getCol (normalize e r t df) "Population"
      = interp ((getCol df "Population").map replace0) := by
  have hnw := not_written_parts (read_not_written h (Pop_mem_readCols e r t))
  simp only [normalize, normRate, normPop, normRev, normTR, normExp, normTE]
  rw [getCol_foldl_normStep_ne _ _ _ _ _ _ hnw.2.2,
    getCol_setCol_self _ _ _ (by simp [length_interp, length_getCol]),
    getCol_foldl_normStep_ne _ _ _ _ _ _ hnw.2.1,
    getCol_setCol_ne _ _ _ _ (by decide) (by simp [length_getCol]),
    getCol_foldl_normStep_ne _ _ _ _ _ _ hnw.1,
    getCol_setCol_ne _ _ _ _ (by decide) (by simp [length_getCol])]

/-- The `_PerExp` column derived for a field of the expenditure group. -/
theorem getCol_normalize_perExp (e r t : List String) (df : DataFrame (Option ℚ))
    (F : String) (h : FreshCols e r t) (hF : F ∈ e) (hFTE : F ≠ "Total_Expenditure") :
    getCol (normalize e r t df) (F ++ "_PerExp")
      = List.zipWith (fun x dv => omul (odiv x dv) (some 100))
          (getCol df F) ((getCol df "Total_Expenditure").map replace0) := by
  have hfacts := not_read_parts h (mem_writtenCols_exp e r t hF)
  have hFW : ∀ j ∈ e, F ≠ j ++ "_PerExp" := fun j hj heq =>
    (not_read_parts h (mem_writtenCols_exp e r t hj)).1 (heq ▸ hF)
  have hTEW : ∀ j ∈ e, "Total_Expenditure" ≠ j ++ "_PerExp" := fun j hj heq =>
    (not_read_parts h (mem_writtenCols_exp e r t hj)).2.2.2.1 heq.symm
  have hlater := fresh_exp_not_later h hF
  simp only [normalize, normRate, normPop, normRev, normTR, normExp, normTE]
  rw [getCol_foldl_normStep_ne _ _ _ _ _ _ hlater.2,
    getCol_setCol_ne _ _ _ _ hfacts.2.2.2.2.2 (by simp [length_interp, length_getCol]),
    getCol_foldl_normStep_ne _ _ _ _ _ _ hlater.1,
    getCol_setCol_ne _ _ _ _ hfacts.2.2.2.2.1 (by simp [length_getCol]),
    getCol_foldl_normStep_derived _ _ _ _ _ _ hF hFW hTEW,
    getCol_setCol_ne _ _ _ _ hFTE (by simp [length_getCol]),
    getCol_setCol_self _ _ _ (by simp [length_getCol])]

/-- The `_PerRev` column derived for a field of the revenue group, with
the numerator still expressed over the state before the revenue loop
(used by the zero-denominator claim, which needs no facts about the
numerator at all). -/
theorem getCol_normalize_perRev_raw (e r t : List String) (df : DataFrame (Option ℚ))
    (F : String) (h : FreshCols e r t) (hF : F ∈ r) :
    getCol (normalize e r t df) (F ++ "_PerRev")
      = List.zipWith (fun x dv => omul (odiv x dv) (some 100))
          (getCol (normTR (normExp e (normTE df))) F)
          ((getCol df "Total_Revenue").map replace0) := by
  have hfacts := not_read_parts h (mem_writtenCols_rev e r t hF)
  have hFW : ∀ j ∈ r, F ≠ j ++ "_PerRev" := fun j hj heq =>
    (not_read_parts h (mem_writtenCols_rev e r t hj)).2.1 (heq ▸ hF)
  have hTRW : ∀ j ∈ r, "Total_Revenue" ≠ j ++ "_PerRev" := fun j hj heq =>
    (not_read_parts h (mem_writtenCols_rev e r t hj)).2.2.2.2.1 heq.symm
  have hTRnw := not_written_parts (read_not_written h (TR_mem_readCols e r t))
  have hrate := fresh_rev_not_rate h hF
  simp only [normalize, normRate, normPop]
  rw [getCol_foldl_normStep_ne _ _ _ _ _ _ hrate,
    getCol_setCol_ne _ _ _ _ hfacts.2.2.2.2.2 (by simp [length_interp, length_getCol])]
  simp only [normRev]
  rw [getCol_foldl_normStep_derived _ _ _ _ _ _ hF hFW hTRW]
  congr 1
  simp only [normTR, normExp, normTE]
  rw [getCol_setCol_self _ _ _ (by simp [length_getCol]),
    getCol_foldl_normStep_ne _ _ _ _ _ _ hTRnw.1,
    getCol_setCol_ne _ _ _ _ (by decide) (by simp [length_getCol])]

/-- The `_PerRev` column derived for a field of the revenue group. -/
theorem getCol_normalize_perRev (e r t : List String) (df : DataFrame (Option ℚ))
    (F : String) (h : FreshCols e r t) (hF : F ∈ r)
    (hFTE : F ≠ "Total_Expenditure") (hFTR : F ≠ "Total_Revenue")
    (hFe : F ∉ e.map (· ++ "_PerExp")) :
    getCol (normalize e r t df) (F ++ "_PerRev")
      = List.zipWith (fun x dv => omul (odiv x dv) (some 100))
          (getCol df F) ((getCol df "Total_Revenue").map replace0) := by
  rw [getCol_normalize_perRev_raw e r t df F h hF]
  congr 1
  simp only [normTR, normExp, normTE]
  rw [getCol_setCol_ne _ _ _ _ hFTR (by simp [length_getCol]),
    getCol_foldl_normStep_ne _ _ _ _ _ _ hFe,
    getCol_setCol_ne _ _ _ _ hFTE (by simp [length_getCol])]

/-- The `_100k` column derived for a field of the rate group. -/
theorem getCol_normalize_per100k (e r t : List String) (df : DataFrame (Option ℚ))
    (F : String) (h : FreshCols e r t) (hF : F ∈ t)
    (hFTE : F ≠ "Total_Expenditure") (hFTR : F ≠ "Total_Revenue") (hFP : F ≠ "Population")
    (hFe : F ∉ e.map (· ++ "_PerExp")) (hFr : F ∉ r.map (· ++ "_PerRev")) :
    getCol (normalize e r t df) (F ++ "_100k")
      = List.zipWith (fun x dv => omul (odiv x dv) (some 100000))
          (getCol df F) (interp ((getCol df "Population").map replace0)) := by
  have hFW : ∀ j ∈ t, F ≠ j ++ "_100k" := fun j hj heq =>
    (not_read_parts h (mem_writtenCols_rate e r t hj)).2.2.1 (heq ▸ hF)
  have hPW : ∀ j ∈ t, "Population" ≠ j ++ "_100k" := fun j hj heq =>
    (not_read_parts h (mem_writtenCols_rate e r t hj)).2.2.2.2.2 heq.symm
  have hPnw := not_written_parts (read_not_written h (Pop_mem_readCols e r t))
  simp only [normalize, normRate, normPop]
  rw [getCol_foldl_normStep_derived _ _ _ _ _ _ hF hFW hPW,
    getCol_setCol_ne _ _ _ _ hFP (by simp [length_interp, length_getCol]),
    getCol_setCol_self _ _ _ (by simp [length_interp, length_getCol])]
  simp only [normRev, normTR, normExp, normTE]
  rw [getCol_foldl_normStep_ne _ _ _ _ _ _ hFr,
    getCol_setCol_ne _ _ _ _ hFTR (by simp [length_getCol]),
    getCol_foldl_normStep_ne _ _ _ _ _ _ hFe,
    getCol_setCol_ne _ _ _ _ hFTE (by simp [length_getCol]),
    getCol_foldl_normStep_ne _ _ _ _ _ _ hPnw.2.1,
    getCol_setCol_ne _ _ _ _ (by decide) (by simp [length_getCol]),
    getCol_foldl_normStep_ne _ _ _ _ _ _ hPnw.1,
    getCol_setCol_ne _ _ _ _ (by decide) (by simp [length_getCol])]

/-- `normalize` keeps every existing column name. -/
theorem mem_cols_normalize (e r t : List String) (df : DataFrame (Option ℚ)) (c : String)
    (hc : c ∈ df.cols) : c ∈ (normalize e r t df).cols := by
  simp only [normalize, normRate, normPop, normRev, normTR, normExp, normTE]
  exact mem_cols_foldl_normStep _ _ _ _ _ _ (mem_cols_setCol _ _ _ _
    (mem_cols_foldl_normStep _ _ _ _ _ _ (mem_cols_setCol _ _ _ _
      (mem_cols_foldl_normStep _ _ _ _ _ _ (mem_cols_setCol _ _ _ _ hc)))))

/-- `normalize` adds the `_PerExp` name of every expenditure field. -/
theorem perExp_mem_cols_normalize (e r t : List String) (df : DataFrame (Option ℚ))
    (F : String) (hF : F ∈ e) : (F ++ "_PerExp") ∈ (normalize e r t df).cols := by
  simp only [normalize, normRate, normPop, normRev, normTR, normExp, normTE]
  apply mem_cols_foldl_normStep
  apply mem_cols_setCol
  apply mem_cols_foldl_normStep
  apply mem_cols_setCol
  exact derived_mem_cols_foldl_normStep _ _ _ _ _ _ hF

/-- `normalize` adds the `_PerRev` name of every revenue field. -/
theorem perRev_mem_cols_normalize (e r t : List String) (df : DataFrame (Option ℚ))
    (F : String) (hF : F ∈ r) : (F ++ "_PerRev") ∈ (normalize e r t df).cols := by
  simp only [normalize, normRate, normPop, normRev, normTR, normExp, normTE]
  apply mem_cols_foldl_normStep
  apply mem_cols_setCol
  exact derived_mem_cols_foldl_normStep _ _ _ _ _ _ hF

/-- `normalize` adds the `_100k` name of every rate field. -/
theorem per100k_mem_cols_normalize (e r t : List String) (df : DataFrame (Option ℚ))
    (F : String) (hF : F ∈ t) : (F ++ "_100k") ∈ (normalize e r t df).cols := by
  simp only [normalize, normRate, normPop, normRev, normTR, normExp, normTE]
  exact derived_mem_cols_foldl_normStep _ _ _ _ _ _ hF

/-- Row index bound extracted from a successful row lookup. -/
theorem lt_rows_length_of_getElem? {α : Type} {df : DataFrame α} {i : ℕ}
    {row : String → α} (hrow : df.rows[i]? = some row) : i < df.rows.length := by
  rcases Nat.lt_or_ge i df.rows.length with hlt | hge
  · exact hlt
  · rw [List.getElem?_eq_none hge] at hrow
    exact absurd hrow (by simp)

/-! ## Claim theorems -/

/-- Claim C1: for every CPI row, the inflation multiplier paired with it
by `addInflation` is `1 + (257.346 - Annual) / Annual`, and it equals
exactly `1` whenever `Annual` equals the reference constant `257.346`. -/
theorem addInflation_multiplier (cpi : List CpiRow) (r : CpiRow) (m : ℚ)
    (h : (r, m) ∈ addInflation cpi) :
    m = conv r.annual ∧
    m = 1 + (((257.346 : ℚ) - r.annual) / r.annual) ∧
    (r.annual = (257.346 : ℚ) → m = 1) := by
  obtain ⟨a, -, ha⟩ := List.mem_map.1 h
  have h1 : a = r := congrArg Prod.fst ha
  have h2 : conv a.annual = m := congrArg Prod.snd ha
  subst h1
  refine ⟨h2.symm, ?_, ?_⟩
  · rw [← h2]
    simp [conv, CPI_OCT_2019]
  · intro hr
    rw [← h2, hr]
    norm_num [conv, CPI_OCT_2019]

/-- Witness for C1 at a one-row CPI table whose `Annual` is the
reference value. -/
theorem addInflation_multiplier_witness :
    ((⟨2019, 257.346⟩ : CpiRow), conv 257.346) ∈ addInflation [⟨2019, 257.346⟩] ∧
    conv (257.346 : ℚ) = 1 := by
  have hmem : ((⟨2019, 257.346⟩ : CpiRow), conv 257.346) ∈ addInflation [⟨2019, 257.346⟩] := by
    simp [addInflation]
  exact ⟨hmem, (addInflation_multiplier _ _ _ hmem).2.2 rfl⟩

/-- Claim C3: the `size` value of every row is `category` of its
`Population`: `rural` below 2500, `non-urban` from 2500 up to but not
including 50000, `urban` from 50000 on, and missing exactly when the
population is missing; it is always one of those four values and is
fully determined by `Population` alone. -/
theorem categorize_size_spec (pops : List (Option ℚ)) (i : ℕ) (pop : Option ℚ)
    (hi : pops[i]? = some pop) :
    (categorize_size pops)[i]? = some (category pop) ∧
    (category pop = none ↔ pop = none) ∧
    (∀ p : ℚ, pop = some p →
      (p < 2500 → category pop = some "rural") ∧
      (2500 ≤ p → p < 50000 → category pop = some "non-urban") ∧
      (50000 ≤ p → category pop = some "urban")) ∧
    (category pop = none ∨ category pop = some "rural" ∨
      category pop = some "non-urban" ∨ category pop = some "urban") := by
  refine ⟨?_, ?_, ?_, ?_⟩
  · simp [categorize_size, List.getElem?_map, hi]
  · cases pop with
    | none => simp [category]
    | some p => simp [category_ne_none p]
  · rintro p rfl
    exact ⟨fun h => category_rural h, fun h1 h2 => category_nonurban h1 h2,
      fun h => category_urban h⟩
  · cases pop with
    | none => exact Or.inl rfl
    | some p =>
      rcases lt_or_le p 2500 with h | h
      · exact Or.inr (Or.inl (category_rural h))
      · rcases lt_or_le p 50000 with h' | h'
        · exact Or.inr (Or.inr (Or.inl (category_nonurban h h')))
        · exact Or.inr (Or.inr (Or.inr (category_urban h')))

/-- Witness for C3 at the boundary populations 2499, 2500, 49999, 50000
and a missing population. -/
theorem categorize_size_spec_witness :
    (categorize_size [some 2499, some 2500, some 49999, some 50000, none])[0]?
      = some (some "rural") ∧
    (categorize_size [some 2499, some 2500, some 49999, some 50000, none])[1]?
      = some (some "non-urban") ∧
    (categorize_size [some 2499, some 2500, some 49999, some 50000, none])[2]?
      = some (some "non-urban") ∧
    (categorize_size [some 2499, some 2500, some 49999, some 50000, none])[3]?
      = some (some "urban") ∧
    (categorize_size [some 2499, some 2500, some 49999, some 50000, none])[4]?
      = some none := by
  refine ⟨?_, ?_, ?_, ?_, ?_⟩
  · exact ((categorize_size_spec [some 2499, some 2500, some 49999, some 50000, none]
      0 (some 2499) rfl).1).trans (by rw [category_rural (by norm_num)])
  · exact ((categorize_size_spec [some 2499, some 2500, some 49999, some 50000, none]
      1 (some 2500) rfl).1).trans (by rw [category_nonurban (by norm_num) (by norm_num)])
  · exact ((categorize_size_spec [some 2499, some 2500, some 49999, some 50000, none]
      2 (some 49999) rfl).1).trans (by rw [category_nonurban (by norm_num) (by norm_num)])
  · exact ((categorize_size_spec [some 2499, some 2500, some 49999, some 50000, none]
      3 (some 50000) rfl).1).trans (by rw [category_urban (by norm_num)])
  · exact ((categorize_size_spec [some 2499, some 2500, some 49999, some 50000, none]
      4 none rfl).1).trans rfl

/-- Claim C5 (amended): when every row of the financial-employment
inner join matches at most one GPS row (in particular when GPS names
are unique), the merge pipeline's row count equals the row count of the
inner join alone.  Without that bound the geo left join duplicates rows
(Cartesian-product join semantics), see the counterexample. -/
theorem all_data_rowcount (ipi_data : List IpiRow) (emp_data : List EmpRow)
    (gps_data : List GpsRow)
    (h : ∀ a ∈ merge1 ipi_data emp_data, (gps_data.filter (gpsKey a)).length ≤ 1) :
    (all_data ipi_data emp_data gps_data).length = (merge1 ipi_data emp_data).length :=
  length_leftJoin gpsKey (merge1 ipi_data emp_data) gps_data h

/-- Witness for C5 (amended) at a one-row instance with a unique GPS name. -/
theorem all_data_rowcount_witness :
    (all_data [⟨"Boise", 1, 2000⟩] [⟨1, 2000⟩] [⟨"Boise"⟩]).length
      = (merge1 [⟨"Boise", 1, 2000⟩] [⟨1, 2000⟩]).length :=
  all_data_rowcount [⟨"Boise", 1, 2000⟩] [⟨1, 2000⟩] [⟨"Boise"⟩] (by decide)

/-- Counterexample to C5 as stated: two GPS rows share the name
`Boise`, so the left join to geo yields 2 rows while the
financial-employment inner join has 1 — the geo-match outcome does
change the row count. -/
theorem all_data_rowcount_counterexample :
    (all_data [⟨"Boise", 1, 2000⟩] [⟨1, 2000⟩] [⟨"Boise"⟩, ⟨"Boise"⟩]).length
      ≠ (merge1 [⟨"Boise", 1, 2000⟩] [⟨1, 2000⟩]).length := by decide

/-- Claim C9: `search_all` matches the pattern case-insensitively
against the table's column names and returns the matching names in
column order (a sublist of the columns); when nothing matches it
returns the empty list rather than raising; on a table with columns
`Total_Crime_100k, Population` the pattern `crime` returns exactly
`["Total_Crime_100k"]`. -/
theorem search_all_spec :
    (∀ (df : DataFrame (Option ℚ)) (s : String), (search_all df s).Sublist df.cols) ∧
    (∀ (df : DataFrame (Option ℚ)) (s : String),
      search_all df s = df.cols.filter (fun c => ciContains c s)) ∧
    (∀ (df : DataFrame (Option ℚ)) (s : String),
      (∀ c ∈ df.cols, ciContains c s = false) → search_all df s = []) ∧
    search_all (⟨["Total_Crime_100k", "Population"], []⟩ : DataFrame (Option ℚ)) "crime"
      = ["Total_Crime_100k"] := by
  refine ⟨fun df s => List.filter_sublist _, fun df s => rfl, fun df s h => ?_, by decide⟩
  rw [search_all, List.filter_eq_nil_iff]
  intro c hc
  simp [h c hc]

/-- Witness for C9's no-match case. -/
theorem search_all_spec_witness :
    search_all (⟨["Population"], []⟩ : DataFrame (Option ℚ)) "crime" = [] :=
  search_all_spec.2.2.1 ⟨["Population"], []⟩ "crime" (by decide)

/-- Claim C10: `conv` divides by its CPI argument without a guard — for
every nonzero `Annual` it returns the multiplier, and at `Annual = 0`
the division raises `ZeroDivisionError` instead of returning one. -/
theorem conv_unguarded (x : ℚ) :
    (x ≠ 0 → convChecked x = .ok (conv x)) ∧
    convChecked 0 = .error "ZeroDivisionError" := by
  constructor
  · intro hx
    simp [convChecked, hx]
  · simp [convChecked]

/-- Witness for C10 at the nonzero input 2. -/
theorem conv_unguarded_witness :
    convChecked 2 = .ok (conv 2) ∧ convChecked 0 = .error "ZeroDivisionError" :=
  ⟨(conv_unguarded 2).1 (by norm_num), (conv_unguarded 2).2⟩

/-- Claim C2: for every input row, normalization derives
`F_PerExp = 100 * F / Total_Expenditure` for each field `F` of the
expenditure group, `F_PerRev = 100 * F / Total_Revenue` for the revenue
group, and `F_100k = 100000 * F / Population` for the rate group, read
off the row's original values whenever the field and the (nonzero)
denominator are present. -/
theorem normalize_derived_fields (e r t : List String) (df : DataFrame (Option ℚ))
    (h : FreshCols e r t) (i : ℕ) (row : String → Option ℚ)
    (hrow : df.rows[i]? = some row) :
    (∀ F ∈ e,
      F ∉ (["Total_Expenditure", "Total_Revenue", "Population"] : List String) →
      ∀ x d : ℚ, row F = some x → row "Total_Expenditure" = some d → d ≠ 0 →
        (getCol (normalize e r t df) (F ++ "_PerExp"))[i]? = some (some (100 * x / d))) ∧
    (∀ F ∈ r,
      F ∉ (["Total_Expenditure", "Total_Revenue", "Population"] : List String) →
      ∀ x d : ℚ, row F = some x → row "Total_Revenue" = some d → d ≠ 0 →
        (getCol (normalize e r t df) (F ++ "_PerRev"))[i]? = some (some (100 * x / d))) ∧
    (∀ F ∈ t,
      F ∉ (["Total_Expenditure", "Total_Revenue", "Population"] : List String) →
      ∀ x d : ℚ, row F = some x → row "Population" = some d → d ≠ 0 →
        (getCol (normalize e r t df) (F ++ "_100k"))[i]? = some (some (100000 * x / d))) := by
  refine ⟨?_, ?_, ?_⟩
  · intro F hF hFd x d hx hd hd0
    simp only [List.mem_cons, List.not_mem_nil, or_false, not_or] at hFd
    rw [getCol_normalize_perExp e r t df F h hF hFd.1, List.getElem?_zipWith',
      List.getElem?_map, getElem?_getCol, getElem?_getCol, hrow]
    have harith : x / d * 100 = 100 * x / d := by ring
    simp [hx, hd, replace0, hd0, omul, odiv, harith]
  · intro F hF hFd x d hx hd hd0
    simp only [List.mem_cons, List.not_mem_nil, or_false, not_or] at hFd
    rw [getCol_normalize_perRev e r t df F h hF hFd.1 hFd.2.1 ?hfe, List.getElem?_zipWith',
      List.getElem?_map, getElem?_getCol, getElem?_getCol, hrow]
    case hfe =>
      intro hmem
      rcases List.mem_map.1 hmem with ⟨j, hj, hje⟩
      exact (not_read_parts h (mem_writtenCols_exp e r t hj)).2.1 (hje ▸ hF)
    have harith : x / d * 100 = 100 * x / d := by ring
    simp [hx, hd, replace0, hd0, omul, odiv, harith]
  · intro F hF hFd x d hx hd hd0
    simp only [List.mem_cons, List.not_mem_nil, or_false, not_or] at hFd
    rw [getCol_normalize_per100k e r t df F h hF hFd.1 hFd.2.1 hFd.2.2 ?hfe ?hfr,
      List.getElem?_zipWith']
    case hfe =>
      intro hmem
      rcases List.mem_map.1 hmem with ⟨j, hj, hje⟩
      exact (not_read_parts h (mem_writtenCols_exp e r t hj)).2.2.1 (hje ▸ hF)
    case hfr =>
      intro hmem
      rcases List.mem_map.1 hmem with ⟨j, hj, hje⟩
      exact (not_read_parts h (mem_writtenCols_rev e r t hj)).2.2.1 (hje ▸ hF)
    have hpop : (interp ((getCol df "Population").map replace0))[i]? = some (some d) := by
      apply getElem?_interp_some
      rw [List.getElem?_map, getElem?_getCol, hrow]
      simp [hd, replace0, hd0]
    have hnum : (getCol df F)[i]? = some (some x) := by
      rw [getElem?_getCol, hrow]
      simp [hx]
    have harith : x / d * 100000 = 100000 * x / d := by ring
    rw [hnum, hpop]
    simp [omul, odiv, hd0, harith]

/-- Witness for C2: a row with `Total_Expenditure = 1000` and
`PoliceExp = 250` gets `PoliceExp_PerExp = 25`, and with
`Population = 100000` and `Crime = 50` gets `Crime_100k = 50`. -/
theorem normalize_derived_fields_witness :
    (getCol (normalize ["PoliceExp"] [] ["Crime"]
        ⟨["Name"], [fun c =>
          if c = "Total_Expenditure" then some 1000 else
          if c = "PoliceExp" then some 250 else
          if c = "Population" then some 100000 else
          if c = "Crime" then some 50 else some 1]⟩) ("PoliceExp" ++ "_PerExp"))[0]?
      = some (some 25) ∧
    (getCol (normalize ["PoliceExp"] [] ["Crime"]
        ⟨["Name"], [fun c =>
          if c = "Total_Expenditure" then some 1000 else
          if c = "PoliceExp" then some 250 else
          if c = "Population" then some 100000 else
          if c = "Crime" then some 50 else some 1]⟩) ("Crime" ++ "_100k"))[0]?
      = some (some 50) := by
  have happ := normalize_derived_fields ["PoliceExp"] [] ["Crime"]
    ⟨["Name"], [fun c =>
      if c = "Total_Expenditure" then some 1000 else
      if c = "PoliceExp" then some 250 else
      if c = "Population" then some 100000 else
      if c = "Crime" then some 50 else some 1]⟩ (by decide) 0
    (fun c =>
      if c = "Total_Expenditure" then some 1000 else
      if c = "PoliceExp" then some 250 else
      if c = "Population" then some 100000 else
      if c = "Crime" then some 50 else some 1) rfl
  constructor
  · exact (happ.1 "PoliceExp" (by decide) (by decide) 250 1000 (by decide) (by decide)
      (by norm_num)).trans (by norm_num)
  · exact (happ.2.2 "Crime" (by decide) (by decide) 50 100000 (by decide) (by decide)
      (by norm_num)).trans (by norm_num)

/-- Claim C4: a row with `Total_Revenue = 0` gets a missing `_PerRev`
value for every field of the revenue group — no error and no infinity,
because the zero denominator is replaced by missing before dividing and
missing propagates. -/
theorem normalize_zero_revenue (e r t : List String) (df : DataFrame (Option ℚ))
    (h : FreshCols e r t) (i : ℕ) (row : String → Option ℚ)
    (hrow : df.rows[i]? = some row) (hTR : row "Total_Revenue" = some 0) :
    ∀ F ∈ r, (getCol (normalize e r t df) (F ++ "_PerRev"))[i]? = some none := by
  intro F hF
  rw [getCol_normalize_perRev_raw e r t df F h hF, List.getElem?_zipWith']
  have hlen : i < (getCol (normTR (normExp e (normTE df))) F).length := by
    rw [length_getCol]
    simp only [normTR, normExp, normTE]
    rw [rows_length_setCol _ _ _ (by simp [length_getCol]), rows_length_foldl_normStep,
      rows_length_setCol _ _ _ (by simp [length_getCol])]
    exact lt_rows_length_of_getElem? hrow
  have hdv : ((getCol df "Total_Revenue").map replace0)[i]? = some none := by
    rw [List.getElem?_map, getElem?_getCol, hrow]
    simp [hTR, replace0]
  cases hvv : (getCol (normTR (normExp e (normTE df))) F)[i]? with
  | none =>
    rw [List.getElem?_eq_none_iff] at hvv
    omega
  | some v =>
    rw [hdv]
    cases v <;> simp [omul, odiv]

/-- Witness for C4: with `Total_Revenue = 0` and revenue field
`TaxRev = 7`, the derived `TaxRev_PerRev` is missing. -/
theorem normalize_zero_revenue_witness :
    (getCol (normalize [] ["TaxRev"] []
        ⟨["Name"], [fun c =>
          if c = "Total_Revenue" then some 0 else some 7]⟩) ("TaxRev" ++ "_PerRev"))[0]?
      = some none :=
  normalize_zero_revenue [] ["TaxRev"] []
    ⟨["Name"], [fun c => if c = "Total_Revenue" then some 0 else some 7]⟩ (by decide) 0
    (fun c => if c = "Total_Revenue" then some 0 else some 7) rfl (by decide)
    "TaxRev" (by decide)

/-- Claim C8 (amended): `normalize` keeps the row count and every
original column other than the three denominator columns unchanged, and
adds the suffixed derived columns alongside the originals; it does,
however, modify `Total_Expenditure` and `Total_Revenue` (zeros become
missing) and `Population` (zeros become missing, then missing values
are interpolated) — see the counterexample for the claim as stated. -/
theorem normalize_frame_effect (e r t : List String) (df : DataFrame (Option ℚ))
    (h : FreshCols e r t) :
    (normalize e r t df).rows.length = df.rows.length ∧
    (∀ c : String, c ∉ writtenCols e r t →
      c ∉ (["Total_Expenditure", "Total_Revenue", "Population"] : List String) →
      getCol (normalize e r t df) c = getCol df c) ∧
    getCol (normalize e r t df) "Total_Expenditure"
      = (getCol df "Total_Expenditure").map replace0 ∧
    getCol (normalize e r t df) "Total_Revenue"
      = (getCol df "Total_Revenue").map replace0 ∧
    getCol (normalize e r t df) "Population"
      = interp ((getCol df "Population").map replace0) ∧
    (∀ c ∈ df.cols, c ∈ (normalize e r t df).cols) ∧
    (∀ F ∈ e, (F ++ "_PerExp") ∈ (normalize e r t df).cols) ∧
    (∀ F ∈ r, (F ++ "_PerRev") ∈ (normalize e r t df).cols) ∧
    (∀ F ∈ t, (F ++ "_100k") ∈ (normalize e r t df).cols) := by
  refine ⟨rows_length_normalize e r t df, ?_, getCol_normalize_TE e r t df h,
    getCol_normalize_TR e r t df h, getCol_normalize_Pop e r t df h,
    fun c hc => mem_cols_normalize e r t df c hc,
    fun F hF => perExp_mem_cols_normalize e r t df F hF,
    fun F hF => perRev_mem_cols_normalize e r t df F hF,
    fun F hF => per100k_mem_cols_normalize e r t df F hF⟩
  intro c hcw hcd
  obtain ⟨h1, h2, h3⟩ := not_written_parts hcw
  simp only [List.mem_cons, List.not_mem_nil, or_false, not_or] at hcd
  exact getCol_normalize_frame e r t df c h1 h2 h3 hcd.1 hcd.2.1 hcd.2.2

/-- Witness for C8 (amended) on a one-row table with expenditure group
`[A]`: the unrelated column `B` is unchanged and `A_PerExp` is added. -/
theorem normalize_frame_effect_witness :
    getCol (normalize ["A"] [] []
        ⟨["A", "B", "Total_Expenditure", "Total_Revenue", "Population"],
          [fun c => if c = "A" then some 2 else some 3]⟩) "B"
      = getCol
          (⟨["A", "B", "Total_Expenditure", "Total_Revenue", "Population"],
            [fun c => if c = "A" then some 2 else some 3]⟩ : DataFrame (Option ℚ)) "B" ∧
    ("A" ++ "_PerExp") ∈ (normalize ["A"] [] []
        ⟨["A", "B", "Total_Expenditure", "Total_Revenue", "Population"],
          [fun c => if c = "A" then some 2 else some 3]⟩).cols := by
  have happ := normalize_frame_effect ["A"] [] []
    ⟨["A", "B", "Total_Expenditure", "Total_Revenue", "Population"],
      [fun c => if c = "A" then some 2 else some 3]⟩ (by decide)
  exact ⟨happ.2.1 "B" (by decide) (by decide), happ.2.2.2.2.2.2.1 "A" (by decide)⟩

/-- Multiplying by a missing multiplier gives missing, whatever the cell. -/
theorem vmul_na (v : Val) : vmul v .na = .na := by
  cases v <;> rfl

/-- The row written by `gen_real_dollars` for an input row. -/
theorem gen_real_dollars_row (catalog : List String) (cpi : List CpiRow)
    (data_all : DataFrame Val) (i : ℕ) (row : String → Val)
    (hrow : data_all.rows[i]? = some row) :
    (gen_real_dollars catalog cpi data_all).rows[i]?
      = some (fun c => if c ∈ finanFields catalog
          then vmul (row c) (rowMult cpi (row "Year4")) else row c) := by
  simp [gen_real_dollars, List.getElem?_map, hrow]

/-- Claim C7: inflation adjustment keeps the row count; it multiplies
exactly the fields classified as financial — the catalog entries at
indices `{0,2} ∪ [18,594) ∪ {616}` minus the names dropped before the
multiplication, which exclude `Name` and `Year4` — by the row's
multiplier, and leaves every other field, `Name` and `Year4` included,
with its original value.  The CPI table is assumed unique on `Year`
with nonzero `Annual` values, the shape under which the columnwise
model is faithful to the pandas merge. -/
theorem gen_real_dollars_frame (catalog : List String) (cpi : List CpiRow)
    (data_all : DataFrame Val)
    (huniq : cpi.Pairwise (fun a b => a.year ≠ b.year))
    (hannual : ∀ c ∈ cpi, c.annual ≠ 0) :
    (gen_real_dollars catalog cpi data_all).rows.length = data_all.rows.length ∧
    "Name" ∉ finanFields catalog ∧
    "Year4" ∉ finanFields catalog ∧
    (∀ (i : ℕ) (row : String → Val), data_all.rows[i]? = some row →
      ∃ row' : String → Val,
        (gen_real_dollars catalog cpi data_all).rows[i]? = some row' ∧
        (∀ c ∈ finanFields catalog, row' c = vmul (row c) (rowMult cpi (row "Year4"))) ∧
        (∀ c : String, c ∉ finanFields catalog → row' c = row c)) := by
  refine ⟨by simp [gen_real_dollars], ?_, ?_, ?_⟩
  · intro hmem
    rcases List.mem_filter.1 hmem with ⟨-, hdec⟩
    simp at hdec
  · intro hmem
    rcases List.mem_filter.1 hmem with ⟨-, hdec⟩
    simp at hdec
  · intro i row hrow
    refine ⟨fun c => if c ∈ finanFields catalog
        then vmul (row c) (rowMult cpi (row "Year4")) else row c,
      gen_real_dollars_row catalog cpi data_all i row hrow, ?_, ?_⟩
    · intro c hc
      simp [hc]
    · intro c hc
      simp [hc]

set_option maxRecDepth 10000 in
/-- Witness for C7: a 19-entry catalog whose index-18 entry `Fin` is the
only financial field; the `Fin` cell is multiplied and `Name` is kept. -/
theorem gen_real_dollars_frame_witness :
    ∃ row' : String → Val,
      (gen_real_dollars
          ["Name", "c1", "Year4", "c3", "c4", "c5", "c6", "c7", "c8", "c9", "c10",
            "c11", "c12", "c13", "c14", "c15", "c16", "c17", "Fin"]
          [⟨2000, 172⟩]
          ⟨["Name", "Year4", "Fin"],
            [fun c => if c = "Name" then .str "Boise" else
              if c = "Year4" then .num 2000 else .num 10]⟩).rows[0]? = some row' ∧
      row' "Fin" = vmul (.num 10) (rowMult [⟨2000, 172⟩] (.num 2000)) ∧
      row' "Name" = .str "Boise" := by
  have happ := gen_real_dollars_frame
    ["Name", "c1", "Year4", "c3", "c4", "c5", "c6", "c7", "c8", "c9", "c10",
      "c11", "c12", "c13", "c14", "c15", "c16", "c17", "Fin"]
    [⟨2000, 172⟩]
    ⟨["Name", "Year4", "Fin"],
      [fun c => if c = "Name" then .str "Boise" else
        if c = "Year4" then .num 2000 else .num 10]⟩
    (by decide) (by decide)
  obtain ⟨row', h1, h2, h3⟩ := happ.2.2.2 0
    (fun c => if c = "Name" then .str "Boise" else
      if c = "Year4" then .num 2000 else .num 10) rfl
  exact ⟨row', h1, h2 "Fin" (by decide), h3 "Name" (by decide)⟩

/-- Claim C6: a financial row whose `Year4` matches no CPI `Year` gets
a missing multiplier, and the multiplication then puts missing into
every financial field of that row — the adjustment is not skipped. -/
theorem gen_real_dollars_unmatched_year (catalog : List String) (cpi : List CpiRow)
    (data_all : DataFrame Val)
    (huniq : cpi.Pairwise (fun a b => a.year ≠ b.year))
    (hannual : ∀ c ∈ cpi, c.annual ≠ 0)
    (i : ℕ) (row : String → Val) (hrow : data_all.rows[i]? = some row)
    (hnomatch : ∀ c ∈ cpi, vEqInt (row "Year4") c.year = false) :
    rowMult cpi (row "Year4") = .na ∧
    ∀ row' : String → Val,
      (gen_real_dollars catalog cpi data_all).rows[i]? = some row' →
      ∀ c ∈ finanFields catalog, row' c = .na := by
  have hmult : rowMult cpi (row "Year4") = .na := by
    unfold rowMult
    have hfil : cpi.filter (fun c => vEqInt (row "Year4") c.year) = [] := by
      rw [List.filter_eq_nil_iff]
      intro c hc
      simp [hnomatch c hc]
    rw [hfil]
    rfl
  refine ⟨hmult, ?_⟩
  intro row' hrow' c hc
  rw [gen_real_dollars_row catalog cpi data_all i row hrow] at hrow'
  have heq := Option.some.inj hrow'
  rw [← heq]
  simp [hc, hmult, vmul_na]

set_option maxRecDepth 10000 in
/-- Witness for C6: `Year4 = 1997` finds no CPI row in a table holding
only the year 2000, so the financial field `Fin` comes out missing. -/
theorem gen_real_dollars_unmatched_year_witness :
    rowMult [⟨2000, 172⟩] (.num 1997) = .na ∧
    ∃ row' : String → Val,
      (gen_real_dollars
          ["Name", "c1", "Year4", "c3", "c4", "c5", "c6", "c7", "c8", "c9", "c10",
            "c11", "c12", "c13", "c14", "c15", "c16", "c17", "Fin"]
          [⟨2000, 172⟩]
          ⟨["Name", "Year4", "Fin"],
            [fun c => if c = "Name" then .str "Boise" else
              if c = "Year4" then .num 1997 else .num 10]⟩).rows[0]? = some row' ∧
      row' "Fin" = .na := by
  have happ := gen_real_dollars_unmatched_year
    ["Name", "c1", "Year4", "c3", "c4", "c5", "c6", "c7", "c8", "c9", "c10",
      "c11", "c12", "c13", "c14", "c15", "c16", "c17", "Fin"]
    [⟨2000, 172⟩]
    ⟨["Name", "Year4", "Fin"],
      [fun c => if c = "Name" then .str "Boise" else
        if c = "Year4" then .num 1997 else .num 10]⟩
    (by decide) (by decide) 0
    (fun c => if c = "Name" then .str "Boise" else
      if c = "Year4" then .num 1997 else .num 10) rfl (by decide)
  exact ⟨happ.1, _, rfl, happ.2 _ rfl "Fin" (by decide)⟩

/-- Counterexample to C8 as stated: `normalize` does not retain every
original column unchanged — a row whose `Total_Expenditure` is 0 has
that original column value replaced by missing. -/
theorem normalize_mutates_total_expenditure :
    getCol (normalize [] [] []
        ⟨["Total_Expenditure", "Total_Revenue", "Population"],
          [fun c => if c = "Total_Expenditure" then some 0 else some 1]⟩)
        "Total_Expenditure"
      ≠ getCol
          (⟨["Total_Expenditure", "Total_Revenue", "Population"],
            [fun c => if c = "Total_Expenditure" then some 0 else some 1]⟩ :
            DataFrame (Option ℚ))
          "Total_Expenditure" := by decide

end IPI
